import Mathlib

/-!
Verification of the metrics/recommendation core of the baseline-modernizer
repository: a shallow embedding in Lean 4 of `MetricsTracker`
(src/metricsTracker.ts), the recommendation and timeline derivations of
`BaselineWebviewProvider` (src/webviewProvider.ts), and the alternative
lookup of `BaselineService`.

Modelling conventions:
- The tracker's counters are all produced by repeated `++`/`+=` of
  nonnegative quantities (the spec declares `issuesCount : integer ≥ 0`),
  so they are embedded as `Nat`; the `count` argument of
  `recordFeatureUsage` is declared `integer` (any sign) by the spec, so
  feature-usage counts are embedded as `Int`.
- JS `number` arithmetic on these small integer counters is modelled as
  exact arithmetic; `Math.round` of a nonnegative ratio `a / b` is
  half-up rounding, `⌊a / b + 1 / 2⌋`.
- `Date` timestamps are abstract instants modelled as `Nat`; every
  mutating call takes the current instant as an explicit argument.
- String manipulation (`split`, `includes`, object keys) is implemented
  structurally over `List Char` so every definition evaluates by kernel
  reduction.
- A JS object used as a dictionary (`featureUsage`) is an association
  list in property-creation order; `Object.entries` enumerates
  array-index-like keys first in ascending numeric order, the remaining
  string keys in creation order (ECMA-262 OrdinaryOwnPropertyKeys), and
  `jsEntries` below reproduces that.
- `Array.prototype.sort` is stable (ES2019), so it is embedded as a
  stable insertion sort with respect to the comparator's strict order.
-/

/-! ## Character-list string helpers -/

/-- `isPrefixCL a b` is true when the char list `a` is a prefix of `b`. -/
def isPrefixCL : List Char → List Char → Bool
  | [], _ => true
  | _ :: _, [] => false
  | a :: as, b :: bs => a == b && isPrefixCL as bs

/-- `hasInfixCL hay needle` is true when `needle` occurs contiguously in
`hay`. -/
def hasInfixCL : List Char → List Char → Bool
  | [], needle => needle.isEmpty
  | c :: t, needle => isPrefixCL needle (c :: t) || hasInfixCL t needle

/-- JS `a.includes(b)`: `b` is a contiguous substring of `a`. -/
def jsIncludes (a b : String) : Bool :=
  hasInfixCL a.data b.data

/-- JS `String.prototype.split` on a single-character separator, here
`'/'`: `"a/b" ↦ ["a","b"]`, `"" ↦ [""]`, `"a/" ↦ ["a",""]`. -/
def splitOnSlash : List Char → List (List Char)
  | [] => [[]]
  | c :: t =>
    let r := splitOnSlash t
    if c == '/' then [] :: r
    else
      match r with
      | [] => [[c]]
      | h :: t2 => (c :: h) :: t2

/-- `filePath.split('/').pop() || filePath`: the last path segment, or the
whole string when that segment is empty (JS `""` is falsy). -/
def jsBasename (s : String) : String :=
  match (splitOnSlash s.data).getLast? with
  | some [] => s
  | some l => ⟨l⟩
  | none => s

/-- Digit-string accumulator for `parseNatCL`. -/
def digitsToNat (acc : Nat) : List Char → Option Nat
  | [] => some acc
  | c :: t => if c.isDigit then digitsToNat (acc * 10 + (c.toNat - 48)) t else none

/-- Parses a nonempty all-digit char list as a `Nat`. -/
def parseNatCL : List Char → Option Nat
  | [] => none
  | c :: t => digitsToNat 0 (c :: t)

/-- An ECMA-262 array index: a string that is the canonical base-10 numeral
of some `n < 2^32 - 1` (no sign, no leading zeros). Such keys are
enumerated first, in ascending numeric order, by `Object.entries`. -/
def isArrayIndex (s : String) : Bool :=
  match parseNatCL s.data with
  | some n => decide (n < 4294967295) && toString n == s
  | none => false

/-- The numeric value of an array-index key (0 for others; only applied to
array-index keys). -/
def keyNum (s : String) : Nat :=
  (parseNatCL s.data).getD 0

/-! ## Stable insertion sort

`insertIn r x l` places `x` before the first element `y` of `l` with
`r y x = false`, where `r y x` reads "`y` strictly precedes `x`".
`sortWith r` is the stable sort for that strict order: elements are kept
in their original relative order whenever neither strictly precedes the
other, exactly the guarantee ES2019 gives for `Array.prototype.sort`. -/

/-- Stable insertion of `x` into `l`: skip the elements that strictly
precede `x`, then place `x`. -/
def insertIn (r : α → α → Bool) (x : α) : List α → List α
  | [] => [x]
  | y :: ys => if r y x then y :: insertIn r x ys else x :: y :: ys

/-- Stable sort by the strict-precedence test `r`. -/
def sortWith (r : α → α → Bool) : List α → List α
  | [] => []
  | x :: xs => insertIn r x (sortWith r xs)

/-! ## Half-up rounding of ratios (JS `Math.round(a / b)`) -/

/-- `Math.round (a / b)` for nonnegative integers with `b > 0`:
`⌊a / b + 1 / 2⌋ = (2 * a + b) / (2 * b)` in integer division. -/
def jsRoundDiv (a b : Nat) : Nat :=
  (2 * a + b) / (2 * b)

/-- `Math.round ((a / b) * 100)` for nonnegative integers with `b > 0`. -/
def jsRoundPct (a b : Nat) : Nat :=
  jsRoundDiv (a * 100) b

/-! ## Data model (`AdoptionMetrics`, src/metricsTracker.ts) -/

/-- One entry of `analysisHistory`. -/
structure AnalysisEntry where
  timestamp : Nat
  fileName : String
  issuesCount : Nat
  language : String
deriving DecidableEq, Repr

/-- One entry of `fixHistory`. -/
structure FixEntry where
  timestamp : Nat
  featureId : String
  fileName : String
deriving DecidableEq, Repr

/-- The `AdoptionMetrics` record held by `MetricsTracker`. `featureUsage`
is the JS dictionary object as an association list in property-creation
order. -/
structure AdoptionMetrics where
  filesAnalyzed : Nat
  issuesFound : Nat
  fixesApplied : Nat
  featureUsage : List (String × Int)
  modernizationProgress : Nat
  lastAnalysis : Nat
  sessionStartTime : Nat
  analysisHistory : List AnalysisEntry
  fixHistory : List FixEntry
deriving DecidableEq, Repr

/-- The `MetricsTracker` constructor state at instant `now`: all counters
zero, empty dictionary and histories, both timestamps stamped `now`. -/
def initMetrics (now : Nat) : AdoptionMetrics :=
  { filesAnalyzed := 0
    issuesFound := 0
    fixesApplied := 0
    featureUsage := []
    modernizationProgress := 0
    lastAnalysis := now
    sessionStartTime := now
    analysisHistory := []
    fixHistory := [] }

/-! ## MetricsTracker operations -/

/-- `updateModernizationProgress`: if `issuesFound === 0` the progress is
100 when at least one file was analyzed and 0 otherwise; else it is
`Math.round((fixesApplied / issuesFound) * 100)`; finally capped at 100. -/
def updateModernizationProgress (m : AdoptionMetrics) : AdoptionMetrics :=
  let p :=
    if m.issuesFound = 0 then (if m.filesAnalyzed > 0 then 100 else 0)
    else jsRoundPct m.fixesApplied m.issuesFound
  { m with modernizationProgress := min p 100 }

/-- `recordAnalysis(filePath, issuesCount, language)` at instant `now`. -/
def recordAnalysis (now : Nat) (filePath : String) (issuesCount : Nat)
    (language : String) (m : AdoptionMetrics) : AdoptionMetrics :=
  updateModernizationProgress
    { m with
      filesAnalyzed := m.filesAnalyzed + 1
      issuesFound := m.issuesFound + issuesCount
      lastAnalysis := now
      analysisHistory := m.analysisHistory ++
        [{ timestamp := now, fileName := jsBasename filePath
           issuesCount := issuesCount, language := language }] }

/-- `recordFix(featureId, fileName)` at instant `now`. -/
def recordFix (now : Nat) (featureId fileName : String)
    (m : AdoptionMetrics) : AdoptionMetrics :=
  updateModernizationProgress
    { m with
      fixesApplied := m.fixesApplied + 1
      fixHistory := m.fixHistory ++
        [{ timestamp := now, featureId := featureId
           fileName := jsBasename fileName }] }

/-- `featureUsage[featureId] += count`, initializing an absent key to 0
first. An absent key is created at the end of the property order; an
existing key keeps its position. -/
def bumpUsage (featureId : String) (count : Int) :
    List (String × Int) → List (String × Int)
  | [] => [(featureId, count)]
  | (k, v) :: rest =>
    if k = featureId then (k, v + count) :: rest
    else (k, v) :: bumpUsage featureId count rest

/-- `recordFeatureUsage(featureId, count)`: does not touch any other field
and does not recompute the progress. -/
def recordFeatureUsage (featureId : String) (count : Int)
    (m : AdoptionMetrics) : AdoptionMetrics :=
  { m with featureUsage := bumpUsage featureId count m.featureUsage }

/-- `reset()` at instant `now`: a fresh all-zero record, both timestamps
re-stamped to `now`, independent of the previous state. -/
def reset (now : Nat) (_ : AdoptionMetrics) : AdoptionMetrics :=
  initMetrics now

/-- `getMetrics()` returns `{ ...this.metrics }`; on the pure value level
the spread copy has exactly the current field values. (The reference
sharing of its object-valued fields is modelled separately below.) -/
def getMetrics (m : AdoptionMetrics) : AdoptionMetrics :=
  m

/-- One `{ feature, count }` element of `getMostUsedFeatures`. -/
structure UsedFeature where
  feature : String
  count : Int
deriving DecidableEq, Repr

/-- `Object.entries(featureUsage)`: array-index-like keys first in
ascending numeric order, then the remaining keys in property-creation
order. -/
def jsEntries (fu : List (String × Int)) : List (String × Int) :=
  sortWith (fun a b => decide (keyNum a.1 < keyNum b.1))
      (fu.filter (fun p => isArrayIndex p.1)) ++
    fu.filter (fun p => !isArrayIndex p.1)

/-- `getMostUsedFeatures()`: entries of `featureUsage`, stably sorted by
the comparator `(a, b) => b.count - a.count` (descending count), first 10
kept. -/
def getMostUsedFeatures (m : AdoptionMetrics) : List UsedFeature :=
  (sortWith (fun a b => decide (b.count < a.count))
      ((jsEntries m.featureUsage).map
        (fun p => { feature := p.1, count := p.2 }))).take 10

/-- `getAnalysisHistory()`: a reversed copy, most recent first. -/
def getAnalysisHistory (m : AdoptionMetrics) : List AnalysisEntry :=
  m.analysisHistory.reverse

/-- `getFixHistory()`: a reversed copy, most recent first. -/
def getFixHistory (m : AdoptionMetrics) : List FixEntry :=
  m.fixHistory.reverse

/-! ## Operation sequences (reachable tracker states) -/

/-- One recording call on the tracker, with the instant at which it is
made. -/
inductive TrackerOp where
  | analysis (now : Nat) (filePath : String) (issuesCount : Nat) (language : String)
  | fix (now : Nat) (featureId : String) (fileName : String)
  | usage (featureId : String) (count : Int)
deriving DecidableEq, Repr

/-- Applies one recording call. -/
def applyOp (m : AdoptionMetrics) : TrackerOp → AdoptionMetrics
  | .analysis now filePath issuesCount language =>
      recordAnalysis now filePath issuesCount language m
  | .fix now featureId fileName => recordFix now featureId fileName m
  | .usage featureId count => recordFeatureUsage featureId count m

/-- Applies a sequence of recording calls in order. -/
def runOps (m : AdoptionMetrics) (ops : List TrackerOp) : AdoptionMetrics :=
  ops.foldl applyOp m

/-- The count `featureUsage` holds for `featureId`, with an absent key
read as 0. -/
def getUsage (fu : List (String × Int)) (featureId : String) : Int :=
  match fu.find? (fun p => p.1 = featureId) with
  | some p => p.2
  | none => 0

/-! ## Recommendation engine (`generateRecommendations`, src/webviewProvider.ts) -/

/-- A `Recommendation` record as pushed by `generateRecommendations`. -/
structure Recommendation where
  id : String
  type : String
  title : String
  description : String
  action : String
  actionable : Bool
  impact : String
deriving DecidableEq, Repr

/-- The `low_fix_rate` priority recommendation, for the current issue
count and computed fix percentage. -/
def lowFixRateRec (issuesFound fixRate : Nat) : Recommendation :=
  { id := "low_fix_rate"
    type := "priority"
    title := "Apply Available Quick Fixes"
    description := "You have " ++ toString issuesFound ++ " issues but only " ++
      toString fixRate ++
      "% fixed. Use VS Code's quick fix actions (Ctrl+.) to modernize your code faster."
    action := "Apply Quick Fixes"
    actionable := true
    impact := "High" }

/-- The `high_density` warning recommendation, for the rounded average
issue count per file. -/
def highDensityRec (avgIssuesPerFile : Nat) : Recommendation :=
  { id := "high_density"
    type := "warning"
    title := "Focus on High-Impact Files"
    description := "Average " ++ toString avgIssuesPerFile ++
      " legacy patterns per file. Prioritize files with the most issues for maximum impact."
    action := "View File Analysis"
    actionable := true
    impact := "Medium" }

/-- The `common_pattern` info recommendation, naming the most-used feature
and its count. -/
def commonPatternRec (topFeature : UsedFeature) : Recommendation :=
  { id := "common_pattern"
    type := "info"
    title := "Modernize \"" ++ topFeature.feature ++ "\" Usage"
    description := "\"" ++ topFeature.feature ++ "\" appears " ++
      toString topFeature.count ++ " times. This is your biggest modernization opportunity."
    action := "View Alternatives"
    actionable := true
    impact := "High" }

/-- The static `baseline_adoption` suggestion recommendation. -/
def baselineAdoptionRec : Recommendation :=
  { id := "baseline_adoption"
    type := "suggestion"
    title := "Adopt More Baseline Features"
    description := "850+ web features are widely available (Baseline High). Consider using modern APIs and CSS properties that are safe across all browsers."
    action := "Explore Baseline Features"
    actionable := true
    impact := "Medium" }

/-- The static `browser_compatibility` info recommendation with the fixed
browser-support percentages. -/
def browserCompatibilityRec : Recommendation :=
  { id := "browser_compatibility"
    type := "info"
    title := "Excellent Browser Support Available"
    description := "Chrome (82%), Firefox (77%), Safari (71%), Edge (78%) - Most modern features have strong cross-browser support."
    action := "View Browser Matrix"
    actionable := false
    impact := "Low" }

/-- `generateRecommendations()`, reading the current metrics snapshot:
sequential `push`es guarded by the source's nested conditions. -/
def generateRecommendations (m : AdoptionMetrics) : List Recommendation :=
  let recs : List Recommendation := []
  let recs :=
    if m.issuesFound > 0 then
      let fixRate := jsRoundPct m.fixesApplied m.issuesFound
      if fixRate < 50 then recs ++ [lowFixRateRec m.issuesFound fixRate] else recs
    else recs
  let recs :=
    if m.filesAnalyzed > 0 then
      let avgIssuesPerFile := jsRoundDiv m.issuesFound m.filesAnalyzed
      if avgIssuesPerFile > 2 then recs ++ [highDensityRec avgIssuesPerFile] else recs
    else recs
  let recs :=
    match getMostUsedFeatures m with
    | topFeature :: _ => recs ++ [commonPatternRec topFeature]
    | [] => recs
  recs ++ [baselineAdoptionRec, browserCompatibilityRec]

/-- The recommendation list as the spec words it: five fixed rules in
fixed order, rules 1-3 guarded by their stated conjunctive conditions,
rules 4-5 unconditional, nothing else. -/
def deriveRecommendationsSpec (m : AdoptionMetrics) : List Recommendation :=
  (if m.issuesFound > 0 ∧ jsRoundPct m.fixesApplied m.issuesFound < 50 then
      [lowFixRateRec m.issuesFound (jsRoundPct m.fixesApplied m.issuesFound)]
    else []) ++
  (if m.filesAnalyzed > 0 ∧ jsRoundDiv m.issuesFound m.filesAnalyzed > 2 then
      [highDensityRec (jsRoundDiv m.issuesFound m.filesAnalyzed)]
    else []) ++
  (match getMostUsedFeatures m with
    | topFeature :: _ => [commonPatternRec topFeature]
    | [] => []) ++
  [baselineAdoptionRec, browserCompatibilityRec]

/-! ## Timeline generator (`generateTimelineData`, src/webviewProvider.ts) -/

/-- A timeline phase record as pushed by `generateTimelineData`. -/
structure TimelinePhase where
  phase : String
  status : String
  progress : Nat
  description : String
  duration : String
  priority : String
  tasks : List String
deriving DecidableEq, Repr

/-- The Assessment phase description, embedding the live counters. -/
def assessmentDescription (m : AdoptionMetrics) : String :=
  "Analyzed " ++ toString m.filesAnalyzed ++ " files and identified " ++
    toString m.issuesFound ++ " modernization opportunities"

/-- The Planning phase description, embedding the live issue counter. -/
def planningDescription (m : AdoptionMetrics) : String :=
  "Prioritized " ++ toString m.issuesFound ++
    " issues by impact and Baseline availability"

/-- The Implementation phase description, embedding the live counters and
completion percentage. -/
def implementationDescription (m : AdoptionMetrics) (completionRate : Nat) : String :=
  "Applied " ++ toString m.fixesApplied ++ " of " ++ toString m.issuesFound ++
    " modernizations (" ++ toString completionRate ++ "% complete)"

/-- The Testing phase description: a fixed string. -/
def testingDescription : String :=
  "Cross-browser testing and performance validation"

/-- The Deployment phase description: a fixed string. -/
def deploymentDescription : String :=
  "Production deployment and monitoring"

/-- `generateTimelineData()`: the five phases pushed in source order, with
the source's status/progress conditionals. -/
def generateTimelineData (m : AdoptionMetrics) : List TimelinePhase :=
  let completionRate :=
    if m.issuesFound > 0 then jsRoundPct m.fixesApplied m.issuesFound else 0
  [ { phase := "Assessment"
      status := if m.filesAnalyzed > 0 then "completed" else "pending"
      progress := if m.filesAnalyzed > 0 then 100 else 0
      description := assessmentDescription m
      duration := "1-2 days"
      priority := "high"
      tasks := ["Scan codebase for legacy patterns",
        "Identify browser compatibility gaps",
        "Catalog modernization opportunities",
        "Generate baseline compatibility report"] },
    { phase := "Planning"
      status := if m.issuesFound > 0 then "completed" else "pending"
      progress := if m.issuesFound > 0 then 100 else 0
      description := planningDescription m
      duration := "2-3 days"
      priority := "high"
      tasks := ["Prioritize issues by impact",
        "Research modern alternatives",
        "Plan migration strategy",
        "Set up testing framework"] },
    { phase := "Implementation"
      status :=
        if completionRate > 0 then
          (if completionRate ≥ 100 then "completed" else "in-progress")
        else "pending"
      progress := completionRate
      description := implementationDescription m completionRate
      duration := "1-2 weeks"
      priority := "medium"
      tasks := ["Replace var with let/const",
        "Migrate XMLHttpRequest to Fetch",
        "Convert float layouts to Flexbox",
        "Update semantic HTML structure"] },
    { phase := "Testing"
      status := if completionRate ≥ 80 then "in-progress" else "pending"
      progress := if completionRate ≥ 80 then 60 else 0
      description := testingDescription
      duration := "3-5 days"
      priority := "high"
      tasks := ["Test across target browsers",
        "Validate performance improvements",
        "Check accessibility compliance",
        "Verify responsive behavior"] },
    { phase := "Deployment"
      status := if completionRate ≥ 100 then "ready" else "pending"
      progress := if completionRate ≥ 100 then 100 else 0
      description := deploymentDescription
      duration := "1-2 days"
      priority := "low"
      tasks := ["Deploy to staging environment",
        "Run automated tests",
        "Monitor performance metrics",
        "Deploy to production"] } ]

/-- The metrics snapshot of the spec's Scenario E: 3 files analyzed, 10
issues found, 1 fix applied. -/
def scenarioE : AdoptionMetrics :=
  { initMetrics 0 with filesAnalyzed := 3, issuesFound := 10, fixesApplied := 1 }

/-! ## BaselineService alternative lookup (`getModernAlternatives`) -/

/-- A modern-alternative record. Only the identifying fields are carried;
the remaining fields of the source record (description, example, browser
versions, ...) are static display strings that the lookup never inspects
(`getModernAlternatives` below is generic in the record type anyway). -/
structure ModernAlternative where
  feature : String
  replacement : String
deriving DecidableEq, Repr

/-- The `modernAlternatives` map: its six keys in `Map` insertion order,
each with its alternative records (identified by their `feature` and
`replacement` fields) in array order. -/
def modernAlternativesCatalog : List (String × List ModernAlternative) :=
  [("var", [{ feature := "let-const", replacement := "let/const" }]),
   ("XMLHttpRequest", [{ feature := "fetch", replacement := "Fetch API" }]),
   ("float", [{ feature := "flexbox", replacement := "CSS Flexbox" },
              { feature := "grid", replacement := "CSS Grid" }]),
   ("function", [{ feature := "arrow-functions", replacement := "Arrow Functions" }]),
   ("<div>", [{ feature := "semantic-elements", replacement := "Semantic HTML5 Elements" }]),
   ("<b><i><u>", [{ feature := "semantic-formatting", replacement := "Semantic Text Elements" }])]

/-- `getModernAlternatives(legacyPattern)`: the exact `Map` entry when the
key exists (a JS array, even an empty one, is truthy); otherwise every
entry whose key is a substring of the query or contains it, concatenated
in map insertion order with no deduplication. -/
def getModernAlternatives (catalog : List (String × List α)) (legacyPattern : String) :
    List α :=
  match catalog.find? (fun kv => kv.1 == legacyPattern) with
  | some kv => kv.2
  | none =>
    (catalog.filter (fun kv =>
        jsIncludes legacyPattern kv.1 || jsIncludes kv.1 legacyPattern)).flatMap
      (fun kv => kv.2)

/-- The lookup as the spec words it: the catalog's records for the id on
an exact key match, else the concatenation, in catalog order, of the
records of every key that is a substring of the queried id or of which
the queried id is a substring, without deduplication. -/
def alternativesForSpec (catalog : List (String × List α)) (patternId : String) :
    List α :=
  if catalog.any (fun kv => kv.1 == patternId) then
    ((catalog.find? (fun kv => kv.1 == patternId)).map (fun kv => kv.2)).getD []
  else
    (catalog.filter (fun kv =>
        jsIncludes patternId kv.1 || jsIncludes kv.1 patternId)).flatMap
      (fun kv => kv.2)

/-! ## Reference-semantics model of `getMetrics()`

`getMetrics()` returns `{ ...this.metrics }`. A JS spread copies field
values; the value of an object-valued field (`featureUsage`,
`analysisHistory`, `fixHistory`) is a reference into the heap, so the
snapshot and the tracker share those three objects. The model below makes
the references explicit: the metrics record stores heap addresses, the
heap maps addresses to object contents, and a caller mutation through the
snapshot is a heap write at the snapshot's address. -/

/-- The tracker's metrics record with its object-valued fields as heap
addresses. -/
structure MetricsRefObj where
  filesAnalyzed : Nat
  issuesFound : Nat
  fixesApplied : Nat
  modernizationProgress : Nat
  lastAnalysis : Nat
  sessionStartTime : Nat
  featureUsageRef : Nat
  analysisHistoryRef : Nat
  fixHistoryRef : Nat
deriving DecidableEq, Repr

/-- The heap of JS objects the tracker's record points into. -/
structure JsHeap where
  featureMaps : Nat → List (String × Int)
  analysisLists : Nat → List AnalysisEntry
  fixLists : Nat → List FixEntry

/-- A `MetricsTracker` instance: its private record plus the heap. -/
structure TrackerRef where
  heap : JsHeap
  metrics : MetricsRefObj

/-- Construction at instant `now`: fresh empty objects at address 0 of
each heap region, counters zero. -/
def trackerConstruct (now : Nat) : TrackerRef :=
  { heap := { featureMaps := fun _ => [], analysisLists := fun _ => [],
              fixLists := fun _ => [] }
    metrics := { filesAnalyzed := 0, issuesFound := 0, fixesApplied := 0
                 modernizationProgress := 0, lastAnalysis := now
                 sessionStartTime := now, featureUsageRef := 0
                 analysisHistoryRef := 0, fixHistoryRef := 0 } }

/-- `getMetrics()` as `{ ...this.metrics }`: the spread copy carries the
same field values, hence the same heap addresses. -/
def getMetricsRef (t : TrackerRef) : MetricsRefObj :=
  t.metrics

/-- JS property assignment `o[k] = v` on a dictionary object: update the
key in place, or create it at the end of the property order. -/
def setKey (k : String) (v : Int) : List (String × Int) → List (String × Int)
  | [] => [(k, v)]
  | (k2, v2) :: rest =>
    if k2 = k then (k2, v) :: rest else (k2, v2) :: setKey k v rest

/-- A caller executes `snap.featureUsage[k] = v` on the snapshot `snap`
returned by `getMetrics()`: a heap write at the snapshot's `featureUsage`
address. The tracker's own record `t.metrics` is not touched. -/
def callerWritesUsage (t : TrackerRef) (snap : MetricsRefObj) (k : String) (v : Int) :
    TrackerRef :=
  { t with heap := { t.heap with featureMaps :=
      (fun a =>
        if a = snap.featureUsageRef then setKey k v (t.heap.featureMaps a)
        else t.heap.featureMaps a) } }

/-- The feature-usage dictionary the tracker itself reads through its own
reference. -/
def trackerFeatureUsage (t : TrackerRef) : List (String × Int) :=
  t.heap.featureMaps t.metrics.featureUsageRef

/-- `getMostUsedFeatures()` on the reference model: the same derivation as
`getMostUsedFeatures`, reading through the tracker's own reference. -/
def getMostUsedFeaturesRef (t : TrackerRef) : List UsedFeature :=
  (sortWith (fun a b => decide (b.count < a.count))
      ((jsEntries (trackerFeatureUsage t)).map
        (fun p => { feature := p.1, count := p.2 }))).take 10

/-! ## Derived predicates used by the claims -/

/-- The completion rate the timeline generator computes from a snapshot. -/
def completionRateOf (m : AdoptionMetrics) : Nat :=
  if m.issuesFound > 0 then jsRoundPct m.fixesApplied m.issuesFound else 0

/-- The entries of `featureUsage` in property-creation order, as
`{ feature, count }` records. -/
def featuresEntries (m : AdoptionMetrics) : List UsedFeature :=
  m.featureUsage.map (fun p => { feature := p.1, count := p.2 })

/-- The full stable descending-count sort of `featuresEntries`. -/
def featuresSorted (m : AdoptionMetrics) : List UsedFeature :=
  sortWith (fun a b => decide (b.count < a.count)) (featuresEntries m)

/-- What C4 claims of `getMostUsedFeatures` (stated over the creation
order of `featureUsage`, which the recording operations maintain as
first-recorded order): the result is the 10-element prefix of the full
descending sort; it has at most 10 entries; the sort is descending in
count; within each count class the first-recorded order is preserved; the
sort is a permutation of the entries; and no dropped entry outcounts a
returned one. -/
def C4Prop (m : AdoptionMetrics) : Prop :=
  getMostUsedFeatures m = (featuresSorted m).take 10 ∧
  (getMostUsedFeatures m).length ≤ 10 ∧
  (getMostUsedFeatures m).Pairwise (fun a b => b.count ≤ a.count) ∧
  (featuresSorted m).Pairwise (fun a b => b.count ≤ a.count) ∧
  (∀ c : Int, (featuresSorted m).filter (fun x => x.count == c) =
      (featuresEntries m).filter (fun x => x.count == c)) ∧
  (featuresSorted m).Perm (featuresEntries m) ∧
  (∀ a ∈ getMostUsedFeatures m, ∀ b ∈ (featuresSorted m).drop 10, b.count ≤ a.count)

/-- The progress-coherence invariant of C1 (with the auxiliary fact that a
state with no analyzed file has no recorded issue). -/
def ProgressInv (m : AdoptionMetrics) : Prop :=
  (m.filesAnalyzed = 0 → m.issuesFound = 0) ∧
  (0 < m.filesAnalyzed → m.issuesFound = 0 → m.modernizationProgress = 100) ∧
  (m.filesAnalyzed = 0 → m.modernizationProgress = 0) ∧
  (0 < m.filesAnalyzed → 0 < m.issuesFound →
    m.modernizationProgress = min (jsRoundPct m.fixesApplied m.issuesFound) 100)

/-- The history-coherence invariant of C10. -/
def HistCoherent (m : AdoptionMetrics) : Prop :=
  m.filesAnalyzed = m.analysisHistory.length ∧
  m.fixesApplied = m.fixHistory.length ∧
  m.issuesFound = (m.analysisHistory.map (fun e => e.issuesCount)).sum

/-! ## Substring lemmas -/

theorem hasInfixCL_nil (l : List Char) : hasInfixCL l [] = true := by
  cases l <;> simp [hasInfixCL, isPrefixCL]

theorem isPrefixCL_refl (l : List Char) : isPrefixCL l l = true := by
  induction l with
  | nil => rfl
  | cons c t ih => simp [isPrefixCL, ih]

theorem isPrefixCL_extend (a : List Char) :
    ∀ l t, isPrefixCL a l = true → isPrefixCL a (l ++ t) = true := by
  induction a with
  | nil => intro l t _; rfl
  | cons c as ih =>
    intro l t h
    cases l with
    | nil => simp [isPrefixCL] at h
    | cons d ls =>
      simp only [isPrefixCL, Bool.and_eq_true] at h
      simp only [List.cons_append, isPrefixCL, Bool.and_eq_true]
      exact ⟨h.1, ih ls t h.2⟩

theorem isPrefixCL_self_append (a t : List Char) : isPrefixCL a (a ++ t) = true :=
  isPrefixCL_extend a a t (isPrefixCL_refl a)

theorem hasInfixCL_append_left (s t a : List Char)
    (h : hasInfixCL s a = true) : hasInfixCL (s ++ t) a = true := by
  induction s with
  | nil =>
    have ha : a = [] := by
      cases a with
      | nil => rfl
      | cons c t2 => simp [hasInfixCL] at h
    subst ha
    exact hasInfixCL_nil _
  | cons c s2 ih =>
    simp only [hasInfixCL, Bool.or_eq_true] at h
    simp only [List.cons_append, hasInfixCL, Bool.or_eq_true]
    cases h with
    | inl hp => exact Or.inl (isPrefixCL_extend a (c :: s2) t hp)
    | inr hi => exact Or.inr (ih hi)

theorem hasInfixCL_append_right (s t a : List Char)
    (h : hasInfixCL t a = true) : hasInfixCL (s ++ t) a = true := by
  induction s with
  | nil => exact h
  | cons c s2 ih =>
    simp only [List.cons_append, hasInfixCL, Bool.or_eq_true]
    exact Or.inr ih

theorem jsIncludes_self (a : String) : jsIncludes a a = true := by
  unfold jsIncludes
  cases hd : a.data with
  | nil => rfl
  | cons c t => simp [hasInfixCL, isPrefixCL_refl]

theorem jsIncludes_left (s t a : String) (h : jsIncludes s a = true) :
    jsIncludes (s ++ t) a = true := by
  unfold jsIncludes at h ⊢
  rw [String.data_append]
  exact hasInfixCL_append_left _ _ _ h

theorem jsIncludes_right (s t a : String) (h : jsIncludes t a = true) :
    jsIncludes (s ++ t) a = true := by
  unfold jsIncludes at h ⊢
  rw [String.data_append]
  exact hasInfixCL_append_right _ _ _ h

/-! ## Stable-sort lemmas -/

theorem insertIn_perm (r : α → α → Bool) (x : α) (l : List α) :
    (insertIn r x l).Perm (x :: l) := by
  induction l with
  | nil => exact List.Perm.refl _
  | cons y ys ih =>
    by_cases hr : r y x = true
    · simp only [insertIn, hr, if_pos]
      exact (ih.cons y).trans (List.Perm.swap x y ys)
    · simp only [insertIn, hr, if_neg, Bool.false_eq_true, not_false_iff]
      exact List.Perm.refl _

theorem sortWith_perm (r : α → α → Bool) (l : List α) :
    (sortWith r l).Perm l := by
  induction l with
  | nil => exact List.Perm.refl _
  | cons x xs ih => exact (insertIn_perm r x (sortWith r xs)).trans (ih.cons x)

theorem insertIn_pairwise {S : α → α → Prop} {r : α → α → Bool}
    (hS1 : ∀ a b, r a b = true → S a b) (hS2 : ∀ a b, r a b = false → S b a)
    (ht : ∀ {a b c}, S a b → S b c → S a c) (x : α) :
    ∀ l, l.Pairwise S → (insertIn r x l).Pairwise S := by
  intro l
  induction l with
  | nil => intro _; exact List.pairwise_singleton S x
  | cons y ys ih =>
    intro hp
    rw [List.pairwise_cons] at hp
    by_cases hr : r y x = true
    · simp only [insertIn, hr, if_pos, List.pairwise_cons]
      refine ⟨?_, ih hp.2⟩
      intro z hz
      rcases List.mem_cons.mp ((insertIn_perm r x ys).mem_iff.mp hz) with hzx | hzys
      · exact hzx ▸ hS1 y x hr
      · exact hp.1 z hzys
    · simp only [insertIn, hr, if_neg, Bool.false_eq_true, not_false_iff,
        List.pairwise_cons]
      have hxy : S x y := hS2 y x (Bool.eq_false_iff.mpr hr)
      refine ⟨?_, ?_⟩
      · intro z hz
        rcases List.mem_cons.mp hz with hzy | hzys
        · exact hzy ▸ hxy
        · exact ht hxy (hp.1 z hzys)
      · exact hp

theorem sortWith_pairwise {S : α → α → Prop} {r : α → α → Bool}
    (hS1 : ∀ a b, r a b = true → S a b) (hS2 : ∀ a b, r a b = false → S b a)
    (ht : ∀ {a b c}, S a b → S b c → S a c) (l : List α) :
    (sortWith r l).Pairwise S := by
  induction l with
  | nil => exact List.Pairwise.nil
  | cons x xs ih => exact insertIn_pairwise hS1 hS2 ht x _ ih

theorem insertIn_filter (r : α → α → Bool) (p : α → Bool) (x : α)
    (hpr : p x = true → ∀ y, r y x = true → p y = false) :
    ∀ l, (insertIn r x l).filter p =
      if p x then x :: l.filter p else l.filter p := by
  intro l
  induction l with
  | nil => cases hx : p x <;> simp [insertIn, List.filter_cons, hx]
  | cons y ys ih =>
    by_cases hr : r y x = true
    · simp only [insertIn, hr, if_pos]
      by_cases hx : p x = true
      · have hy : p y = false := hpr hx y hr
        simp [List.filter_cons, hy, ih, hx]
      · have hx2 : p x = false := Bool.eq_false_iff.mpr hx
        simp [List.filter_cons, ih, hx2]
    · simp only [insertIn, hr, if_neg, Bool.false_eq_true, not_false_iff]
      by_cases hx : p x = true
      · simp [List.filter_cons, hx]
      · have hx2 : p x = false := Bool.eq_false_iff.mpr hx
        simp [List.filter_cons, hx2]

theorem sortWith_filter (r : α → α → Bool) (p : α → Bool)
    (hcross : ∀ x, p x = true → ∀ y, r y x = true → p y = false) (l : List α) :
    (sortWith r l).filter p = l.filter p := by
  induction l with
  | nil => rfl
  | cons x xs ih =>
    rw [sortWith, insertIn_filter r p x (hcross x), ih]
    by_cases hx : p x = true
    · simp [List.filter_cons, hx]
    · have hx2 : p x = false := Bool.eq_false_iff.mpr hx
      simp [List.filter_cons, hx2]

/-! ## Tracker invariants -/

theorem progressInv_init (t : Nat) : ProgressInv (initMetrics t) := by
  refine ⟨fun _ => rfl, fun h _ => absurd h (by simp [initMetrics]), fun _ => rfl,
    fun h _ => absurd h (by simp [initMetrics])⟩

theorem progressInv_applyOp (m : AdoptionMetrics) (op : TrackerOp)
    (h : ProgressInv m) : ProgressInv (applyOp m op) := by
  obtain ⟨haux, h100, h0, hmid⟩ := h
  cases op with
  | analysis now filePath issuesCount language =>
    simp only [applyOp, recordAnalysis, updateModernizationProgress]
    refine ⟨?_, ?_, ?_, ?_⟩ <;> simp only []
    · intro hfa; exact absurd hfa (by simp)
    · intro _ hiz
      simp [hiz]
    · intro hfa; exact absurd hfa (by simp)
    · intro _ hiz
      have : ¬ (m.issuesFound + issuesCount = 0) := Nat.pos_iff_ne_zero.mp hiz
      simp [this]
  | fix now featureId fileName =>
    simp only [applyOp, recordFix, updateModernizationProgress]
    refine ⟨?_, ?_, ?_, ?_⟩ <;> simp only []
    · intro hfa; exact haux hfa
    · intro hfp hiz
      simp [hiz, hfp]
    · intro hfa
      have hiz := haux hfa
      simp [hiz, hfa]
    · intro _ hiz
      have : ¬ (m.issuesFound = 0) := Nat.pos_iff_ne_zero.mp hiz
      simp [this]
  | usage featureId count =>
    simp only [applyOp, recordFeatureUsage]
    exact ⟨haux, h100, h0, hmid⟩

theorem progressInv_runOps (ops : List TrackerOp) :
    ∀ m : AdoptionMetrics, ProgressInv m → ProgressInv (runOps m ops) := by
  induction ops with
  | nil => intro m h; exact h
  | cons op ops ih =>
    intro m h
    exact ih (applyOp m op) (progressInv_applyOp m op h)

theorem histCoherent_init (t : Nat) : HistCoherent (initMetrics t) :=
  ⟨rfl, rfl, rfl⟩

theorem histCoherent_applyOp (m : AdoptionMetrics) (op : TrackerOp)
    (h : HistCoherent m) : HistCoherent (applyOp m op) := by
  obtain ⟨hf, hx, hi⟩ := h
  cases op with
  | analysis now filePath issuesCount language =>
    refine ⟨?_, ?_, ?_⟩ <;>
      simp only [applyOp, recordAnalysis, updateModernizationProgress]
    · simp [hf]
    · simp [hx]
    · simp [hi]
  | fix now featureId fileName =>
    refine ⟨?_, ?_, ?_⟩ <;>
      simp only [applyOp, recordFix, updateModernizationProgress]
    · simp [hf]
    · simp [hx]
    · simp [hi]
  | usage featureId count => exact ⟨hf, hx, hi⟩

theorem histCoherent_runOps (ops : List TrackerOp) :
    ∀ m : AdoptionMetrics, HistCoherent m → HistCoherent (runOps m ops) := by
  induction ops with
  | nil => intro m h; exact h
  | cons op ops ih =>
    intro m h
    exact ih (applyOp m op) (histCoherent_applyOp m op h)

/-! ## Feature-usage lemmas -/

theorem getUsage_nil (fid : String) : getUsage [] fid = 0 := rfl

theorem getUsage_cons_eq (k fid : String) (v : Int) (l : List (String × Int))
    (h : k = fid) : getUsage ((k, v) :: l) fid = v := by
  simp [getUsage, List.find?, h]

theorem getUsage_cons_ne (k fid : String) (v : Int) (l : List (String × Int))
    (h : ¬ k = fid) : getUsage ((k, v) :: l) fid = getUsage l fid := by
  simp only [getUsage, List.find?, decide_eq_true_eq]
  have : decide (k = fid) = false := decide_eq_false h
  simp [this]

theorem getUsage_bumpUsage (f fid : String) (c : Int) :
    ∀ fu : List (String × Int), getUsage (bumpUsage f c fu) fid =
      if fid = f then getUsage fu fid + c else getUsage fu fid := by
  intro fu
  induction fu with
  | nil =>
    by_cases hf : fid = f
    · rw [show bumpUsage f c [] = [(f, c)] from rfl,
        getUsage_cons_eq f fid c [] hf.symm]
      simp [hf, getUsage_nil]
    · rw [show bumpUsage f c [] = [(f, c)] from rfl,
        getUsage_cons_ne f fid c [] (fun hh => hf hh.symm)]
      simp [hf]
  | cons kv rest ih =>
    obtain ⟨k, v⟩ := kv
    by_cases hk : k = f
    · subst hk
      have hb : bumpUsage k c ((k, v) :: rest) = (k, v + c) :: rest := by
        simp [bumpUsage]
      rw [hb]
      by_cases hfid : k = fid
      · rw [getUsage_cons_eq k fid (v + c) rest hfid,
          getUsage_cons_eq k fid v rest hfid]
        simp [hfid.symm]
      · rw [getUsage_cons_ne k fid (v + c) rest hfid,
          getUsage_cons_ne k fid v rest hfid]
        have : ¬ fid = k := fun hh => hfid hh.symm
        simp [this]
    · have hb : bumpUsage f c ((k, v) :: rest) = (k, v) :: bumpUsage f c rest := by
        simp [bumpUsage, hk]
      rw [hb]
      by_cases hfid : k = fid
      · have hnf : ¬ fid = f := fun hh => hk (hfid.trans hh)
        rw [getUsage_cons_eq k fid v (bumpUsage f c rest) hfid,
          getUsage_cons_eq k fid v rest hfid]
        simp [hnf]
      · rw [getUsage_cons_ne k fid v (bumpUsage f c rest) hfid,
          getUsage_cons_ne k fid v rest hfid, ih]

/-- Under the no-array-index hypothesis `jsEntries` is the identity: the
entries come back exactly in property-creation order. -/
theorem jsEntries_of_no_index (fu : List (String × Int))
    (h : ∀ p ∈ fu, isArrayIndex p.1 = false) : jsEntries fu = fu := by
  have h1 : fu.filter (fun p => isArrayIndex p.1) = [] := by
    rw [List.filter_eq_nil_iff]
    intro p hp
    simp [h p hp]
  have h2 : fu.filter (fun p => !isArrayIndex p.1) = fu := by
    rw [List.filter_eq_self]
    intro p hp
    simp [h p hp]
  rw [jsEntries, h1, h2]
  rfl

/-! ## Claim theorems -/

/-- C1 (amended): in every state reachable from construction or reset by
recording calls, `modernizationProgress` follows the conditional chain —
100 when `filesAnalyzed > 0` and `issuesFound == 0`; 0 when
`filesAnalyzed == 0`; otherwise `round(fixesApplied / issuesFound * 100)`
capped at 100. (The original "if and only if" of the first branch fails:
the third branch can also produce 100.) -/
theorem claim_C1 (t0 : Nat) (ops : List TrackerOp) :
    (0 < (runOps (initMetrics t0) ops).filesAnalyzed →
      (runOps (initMetrics t0) ops).issuesFound = 0 →
      (runOps (initMetrics t0) ops).modernizationProgress = 100) ∧
    ((runOps (initMetrics t0) ops).filesAnalyzed = 0 →
      (runOps (initMetrics t0) ops).modernizationProgress = 0) ∧
    (0 < (runOps (initMetrics t0) ops).filesAnalyzed →
      0 < (runOps (initMetrics t0) ops).issuesFound →
      (runOps (initMetrics t0) ops).modernizationProgress =
        min (jsRoundPct (runOps (initMetrics t0) ops).fixesApplied
          (runOps (initMetrics t0) ops).issuesFound) 100) := by
  have h := progressInv_runOps ops (initMetrics t0) (progressInv_init t0)
  exact ⟨h.2.1, h.2.2.1, h.2.2.2⟩

/-- Witness for C1: one reachable state per branch of the chain. -/
theorem claim_C1_witness :
    (runOps (initMetrics 0)
      [TrackerOp.analysis 1 "a.js" 0 "javascript"]).modernizationProgress = 100 ∧
    (runOps (initMetrics 0) []).modernizationProgress = 0 ∧
    (runOps (initMetrics 0)
      [TrackerOp.analysis 1 "a.js" 4 "javascript",
       TrackerOp.fix 2 "let-const" ""]).modernizationProgress =
      min (jsRoundPct 1 4) 100 :=
  ⟨(claim_C1 0 [TrackerOp.analysis 1 "a.js" 0 "javascript"]).1 (by decide) (by decide),
   (claim_C1 0 []).2.1 (by decide),
   (claim_C1 0 [TrackerOp.analysis 1 "a.js" 4 "javascript",
      TrackerOp.fix 2 "let-const" ""]).2.2 (by decide) (by decide)⟩

/-- Counterexample for C1 as frozen: after analyzing one file with 1
issue and recording 1 fix, the progress is 100 although `issuesFound` is
not 0, so "progress == 100 iff filesAnalyzed > 0 and issuesFound == 0"
fails in its only-if direction. -/
theorem claim_C1_counterexample :
    (runOps (initMetrics 0)
      [TrackerOp.analysis 1 "a.js" 1 "javascript",
       TrackerOp.fix 2 "let-const" ""]).modernizationProgress = 100 ∧
    ¬ (0 < (runOps (initMetrics 0)
        [TrackerOp.analysis 1 "a.js" 1 "javascript",
         TrackerOp.fix 2 "let-const" ""]).filesAnalyzed ∧
       (runOps (initMetrics 0)
        [TrackerOp.analysis 1 "a.js" 1 "javascript",
         TrackerOp.fix 2 "let-const" ""]).issuesFound = 0) := by
  decide

/-- C10: in every reachable state, `filesAnalyzed` is the length of
`analysisHistory`, `fixesApplied` the length of `fixHistory`, and
`issuesFound` the sum of the `issuesCount` fields over `analysisHistory`. -/
theorem claim_C10 (t0 : Nat) (ops : List TrackerOp) :
    (runOps (initMetrics t0) ops).filesAnalyzed =
      (runOps (initMetrics t0) ops).analysisHistory.length ∧
    (runOps (initMetrics t0) ops).fixesApplied =
      (runOps (initMetrics t0) ops).fixHistory.length ∧
    (runOps (initMetrics t0) ops).issuesFound =
      ((runOps (initMetrics t0) ops).analysisHistory.map
        (fun e => e.issuesCount)).sum :=
  histCoherent_runOps ops (initMetrics t0) (histCoherent_init t0)

/-- C8: `reset` at instant `t` from any state yields exactly the
constructor's zero-state, as observed by every read operation, with
`sessionStartTime` re-stamped to the reset instant. -/
theorem claim_C8 (s : AdoptionMetrics) (t : Nat) :
    reset t s = initMetrics t ∧
    (reset t s).filesAnalyzed = 0 ∧
    (reset t s).issuesFound = 0 ∧
    (reset t s).fixesApplied = 0 ∧
    (reset t s).modernizationProgress = 0 ∧
    (reset t s).featureUsage = [] ∧
    (reset t s).analysisHistory = [] ∧
    (reset t s).fixHistory = [] ∧
    getMetrics (reset t s) = initMetrics t ∧
    getMostUsedFeatures (reset t s) = [] ∧
    getAnalysisHistory (reset t s) = [] ∧
    getFixHistory (reset t s) = [] ∧
    (reset t s).sessionStartTime = t :=
  ⟨rfl, rfl, rfl, rfl, rfl, rfl, rfl, rfl, rfl, rfl, rfl, rfl, rfl⟩

/-- C6 (amended): a single recording operation never decreases any
feature's usage count, provided a `recordFeatureUsage` call passes a
nonnegative count. (The original claim, for every integer count, fails on
negative counts.) -/
theorem claim_C6 (m : AdoptionMetrics) (op : TrackerOp) (fid : String)
    (h : match op with | TrackerOp.usage _ c => 0 ≤ c | _ => True) :
    getUsage m.featureUsage fid ≤ getUsage (applyOp m op).featureUsage fid := by
  cases op with
  | analysis now filePath issuesCount language => exact le_refl _
  | fix now featureId fileName => exact le_refl _
  | usage featureId count =>
    have hc : (0 : Int) ≤ count := h
    simp only [applyOp, recordFeatureUsage]
    rw [getUsage_bumpUsage]
    by_cases hf : fid = featureId
    · simp only [hf, if_pos]
      exact le_add_of_nonneg_right hc
    · simp [hf]

/-- Witness for C6: recording 2 uses of "x" on a fresh tracker does not
decrease the count of "x". -/
theorem claim_C6_witness :
    ((0 : Int) ≤ 2) ∧
    getUsage (initMetrics 0).featureUsage "x" ≤
      getUsage (applyOp (initMetrics 0) (TrackerOp.usage "x" 2)).featureUsage "x" :=
  ⟨by decide, claim_C6 (initMetrics 0) (TrackerOp.usage "x" 2) "x" (by decide)⟩

/-- Counterexample for C6 as frozen: `recordFeatureUsage("x", -2)` after
`recordFeatureUsage("x", 3)` strictly decreases the stored count. -/
theorem claim_C6_counterexample :
    getUsage (runOps (initMetrics 0)
        [TrackerOp.usage "x" 3, TrackerOp.usage "x" (-2)]).featureUsage "x" <
      getUsage (runOps (initMetrics 0) [TrackerOp.usage "x" 3]).featureUsage "x" := by
  decide

/-- C5 (code bug): `getMetrics()` is the spread copy `{ ...this.metrics }`,
so the snapshot holds the same `featureUsage` reference as the tracker;
after the caller assigns `snap.featureUsage["x"] = 7` on the snapshot of a
fresh tracker, the tracker's own `getMostUsedFeatures()` reports the
mutation. -/
theorem claim_C5 :
    (getMetricsRef (trackerConstruct 0)).featureUsageRef =
      (trackerConstruct 0).metrics.featureUsageRef ∧
    getMostUsedFeaturesRef (trackerConstruct 0) = [] ∧
    getMostUsedFeaturesRef
      (callerWritesUsage (trackerConstruct 0) (getMetricsRef (trackerConstruct 0)) "x" 7) =
      [{ feature := "x", count := 7 }] :=
  ⟨rfl, rfl, by decide⟩

/-- C9: the alternatives lookup returns the exact catalog entry when the
key exists, else the concatenation, in catalog order and without
deduplication, of the entries whose key contains the query or is
contained in it — together with concrete lookups on the repository's
catalog. -/
theorem claim_C9 :
    (∀ (α : Type) (catalog : List (String × List α)) (p : String),
      getModernAlternatives catalog p = alternativesForSpec catalog p) ∧
    getModernAlternatives modernAlternativesCatalog "var" =
      [{ feature := "let-const", replacement := "let/const" }] ∧
    (getModernAlternatives modernAlternativesCatalog "f").map (fun a => a.feature) =
      ["flexbox", "grid", "arrow-functions"] ∧
    (getModernAlternatives modernAlternativesCatalog "XMLHttpRequests").map
      (fun a => a.feature) = ["fetch"] := by
  refine ⟨?_, by decide, by decide, by decide⟩
  intro α catalog p
  unfold getModernAlternatives alternativesForSpec
  cases hf : catalog.find? (fun kv => kv.1 == p) with
  | none =>
    have hany : catalog.any (fun kv => kv.1 == p) = false := by
      rw [List.any_eq_false]
      intro kv hkv
      simpa using List.find?_eq_none.mp hf kv hkv
    simp [hany]
  | some kv =>
    have hpred := List.find?_some hf
    have hany : catalog.any (fun kv2 => kv2.1 == p) = true :=
      List.any_eq_true.mpr ⟨kv, List.mem_of_find?_eq_some hf, hpred⟩
    simp [hany, hf]

theorem impl_status (rate : Nat) :
    (if rate > 0 then (if rate ≥ 100 then "completed" else "in-progress")
     else "pending") =
    (if rate ≥ 100 then "completed"
     else if rate > 0 then "in-progress" else "pending") := by
  by_cases h100 : rate ≥ 100
  · have h0 : rate > 0 := Nat.lt_of_lt_of_le (by decide) h100
    simp [h100, h0]
  · by_cases h0 : rate > 0 <;> simp [h100, h0]

/-- C3: the timeline is exactly the five phases Assessment, Planning,
Implementation, Testing, Deployment in that order, with the claimed
status/progress derivation from the snapshot; and on Scenario E
(3 files, 10 issues, 1 fix) Implementation is in-progress at 10 and
Testing pending at 0. -/
theorem claim_C3 :
    (∀ m : AdoptionMetrics,
      (generateTimelineData m).map (fun p => (p.phase, p.status, p.progress)) =
        [("Assessment", if m.filesAnalyzed > 0 then "completed" else "pending",
            if m.filesAnalyzed > 0 then (100 : Nat) else 0),
         ("Planning", if m.issuesFound > 0 then "completed" else "pending",
            if m.issuesFound > 0 then (100 : Nat) else 0),
         ("Implementation",
            if completionRateOf m ≥ 100 then "completed"
            else if completionRateOf m > 0 then "in-progress" else "pending",
            completionRateOf m),
         ("Testing", if completionRateOf m ≥ 80 then "in-progress" else "pending",
            if completionRateOf m ≥ 80 then (60 : Nat) else 0),
         ("Deployment", if completionRateOf m ≥ 100 then "ready" else "pending",
            if completionRateOf m ≥ 100 then (100 : Nat) else 0)]) ∧
    completionRateOf scenarioE = 10 ∧
    (generateTimelineData scenarioE).map (fun p => (p.phase, p.status, p.progress)) =
      [("Assessment", "completed", 100), ("Planning", "completed", 100),
       ("Implementation", "in-progress", 10), ("Testing", "pending", 0),
       ("Deployment", "pending", 0)] := by
  refine ⟨?_, by decide, by decide⟩
  intro m
  simp only [generateTimelineData, completionRateOf, List.map_cons, List.map_nil]
  rw [impl_status]

/-- C7 (amended): the Assessment, Planning and Implementation phase
descriptions embed the live counters they mention (files analyzed and
issues found; issues found; fixes applied, issues found and completion
percentage respectively); the Testing and Deployment descriptions are
fixed strings that embed no counter. -/
theorem claim_C7 (m : AdoptionMetrics) :
    (generateTimelineData m).map (fun p => p.description) =
      [assessmentDescription m, planningDescription m,
       implementationDescription m (completionRateOf m),
       testingDescription, deploymentDescription] ∧
    jsIncludes (assessmentDescription m) (toString m.filesAnalyzed) = true ∧
    jsIncludes (assessmentDescription m) (toString m.issuesFound) = true ∧
    jsIncludes (planningDescription m) (toString m.issuesFound) = true ∧
    jsIncludes (implementationDescription m (completionRateOf m))
      (toString m.fixesApplied) = true ∧
    jsIncludes (implementationDescription m (completionRateOf m))
      (toString m.issuesFound) = true ∧
    jsIncludes (implementationDescription m (completionRateOf m))
      (toString (completionRateOf m)) = true := by
  refine ⟨?_, ?_, ?_, ?_, ?_, ?_, ?_⟩
  · simp only [generateTimelineData, completionRateOf, List.map_cons, List.map_nil]
  · unfold assessmentDescription
    exact jsIncludes_left _ _ _ (jsIncludes_left _ _ _ (jsIncludes_left _ _ _
      (jsIncludes_right _ _ _ (jsIncludes_self _))))
  · unfold assessmentDescription
    exact jsIncludes_left _ _ _ (jsIncludes_right _ _ _ (jsIncludes_self _))
  · unfold planningDescription
    exact jsIncludes_left _ _ _ (jsIncludes_right _ _ _ (jsIncludes_self _))
  · unfold implementationDescription
    exact jsIncludes_left _ _ _ (jsIncludes_left _ _ _ (jsIncludes_left _ _ _
      (jsIncludes_left _ _ _ (jsIncludes_left _ _ _
        (jsIncludes_right _ _ _ (jsIncludes_self _))))))
  · unfold implementationDescription
    exact jsIncludes_left _ _ _ (jsIncludes_left _ _ _ (jsIncludes_left _ _ _
      (jsIncludes_right _ _ _ (jsIncludes_self _))))
  · unfold implementationDescription
    exact jsIncludes_left _ _ _ (jsIncludes_right _ _ _ (jsIncludes_self _))

/-- Counterexample for C7 as frozen: on Scenario E the Testing phase
description (the 4th) embeds none of the live counters (3 files, 10
issues, 1 fix), and the Deployment description (the 5th) embeds none
either. -/
theorem claim_C7_counterexample :
    jsIncludes (((generateTimelineData scenarioE).map (fun p => p.description)).getD 3 "")
      (toString scenarioE.filesAnalyzed) = false ∧
    jsIncludes (((generateTimelineData scenarioE).map (fun p => p.description)).getD 3 "")
      (toString scenarioE.issuesFound) = false ∧
    jsIncludes (((generateTimelineData scenarioE).map (fun p => p.description)).getD 3 "")
      (toString scenarioE.fixesApplied) = false ∧
    jsIncludes (((generateTimelineData scenarioE).map (fun p => p.description)).getD 4 "")
      (toString scenarioE.filesAnalyzed) = false := by
  decide

/-- C2: the recommendation list is exactly the five fixed rules in fixed
order — the conditional priority, warning and info rules with their
stated guards, then the two static recommendations — and the conditional
recommendations embed the counters the claim names. -/
theorem claim_C2 :
    (∀ m : AdoptionMetrics, generateRecommendations m = deriveRecommendationsSpec m) ∧
    (∀ i r : Nat, (lowFixRateRec i r).type = "priority" ∧
      jsIncludes (lowFixRateRec i r).description (toString i) = true ∧
      jsIncludes (lowFixRateRec i r).description (toString r) = true) ∧
    (∀ a : Nat, (highDensityRec a).type = "warning" ∧
      jsIncludes (highDensityRec a).description (toString a) = true) ∧
    (∀ f : UsedFeature, (commonPatternRec f).type = "info" ∧
      jsIncludes (commonPatternRec f).title f.feature = true ∧
      jsIncludes (commonPatternRec f).description f.feature = true ∧
      jsIncludes (commonPatternRec f).description (toString f.count) = true) ∧
    baselineAdoptionRec.type = "suggestion" ∧
    browserCompatibilityRec.type = "info" := by
  refine ⟨?_, ?_, ?_, ?_, rfl, rfl⟩
  · intro m
    unfold generateRecommendations deriveRecommendationsSpec
    by_cases h1 : m.issuesFound > 0 <;>
      by_cases h2 : jsRoundPct m.fixesApplied m.issuesFound < 50 <;>
      by_cases h3 : m.filesAnalyzed > 0 <;>
      by_cases h4 : jsRoundDiv m.issuesFound m.filesAnalyzed > 2 <;>
      cases hM : getMostUsedFeatures m <;>
      simp [h1, h2, h3, h4, hM]
  · intro i r
    refine ⟨rfl, ?_, ?_⟩
    · exact jsIncludes_left _ _ _ (jsIncludes_left _ _ _ (jsIncludes_left _ _ _
        (jsIncludes_right _ _ _ (jsIncludes_self _))))
    · exact jsIncludes_left _ _ _ (jsIncludes_right _ _ _ (jsIncludes_self _))
  · intro a
    exact ⟨rfl, jsIncludes_left _ _ _ (jsIncludes_right _ _ _ (jsIncludes_self _))⟩
  · intro f
    refine ⟨rfl, ?_, ?_, ?_⟩
    · exact jsIncludes_left _ _ _ (jsIncludes_right _ _ _ (jsIncludes_self _))
    · exact jsIncludes_left _ _ _ (jsIncludes_left _ _ _ (jsIncludes_left _ _ _
        (jsIncludes_right _ _ _ (jsIncludes_self _))))
    · exact jsIncludes_left _ _ _ (jsIncludes_right _ _ _ (jsIncludes_self _))

/-- C4 (amended): provided no recorded feature id is an ECMA-262 array
index (an integer-like key, which `Object.entries` would reorder
numerically ahead of the others), `getMostUsedFeatures` returns the
10-element prefix of the stable descending-count sort of the entries in
first-recorded order: sorted descending, ties kept in first-recorded
order, at most 10 entries, and no dropped entry outcounting a returned
one. -/
theorem claim_C4 (m : AdoptionMetrics)
    (h : ∀ p ∈ m.featureUsage, isArrayIndex p.1 = false) : C4Prop m := by
  have hjs : jsEntries m.featureUsage = m.featureUsage :=
    jsEntries_of_no_index m.featureUsage h
  have hget : getMostUsedFeatures m = (featuresSorted m).take 10 := by
    unfold getMostUsedFeatures featuresSorted featuresEntries
    rw [hjs]
  have hpair : (featuresSorted m).Pairwise
      (fun a b : UsedFeature => b.count ≤ a.count) := by
    apply sortWith_pairwise (r := fun a b : UsedFeature => decide (b.count < a.count))
    · intro a b hab
      exact le_of_lt (of_decide_eq_true hab)
    · intro a b hab
      exact le_of_not_lt (of_decide_eq_false hab)
    · intro a b c hab hbc
      exact le_trans hbc hab
  refine ⟨hget, ?_, ?_, hpair, ?_, sortWith_perm _ _, ?_⟩
  · rw [hget]
    exact List.length_take_le 10 _
  · rw [hget]
    exact List.Pairwise.sublist (List.take_sublist 10 _) hpair
  · intro c
    apply sortWith_filter
    intro x hx y hy
    have hxc : x.count = c := by simpa using hx
    have hlt : x.count < y.count := of_decide_eq_true hy
    have hne : y.count ≠ c := hxc ▸ ne_of_gt hlt
    simpa using hne
  · intro a ha b hb
    have ha2 : a ∈ (featuresSorted m).take 10 := hget ▸ ha
    have hp2 : ((featuresSorted m).take 10 ++ (featuresSorted m).drop 10).Pairwise
        (fun a b : UsedFeature => b.count ≤ a.count) := by
      rw [List.take_append_drop 10 (featuresSorted m)]
      exact hpair
    exact (List.pairwise_append.mp hp2).2.2 a ha2 b hb

/-- Witness for C4: a two-feature usage map with no integer-like key. -/
theorem claim_C4_witness :
    (∀ p ∈ ({ initMetrics 0 with
        featureUsage := [("var", 3), ("fetch", 5)] } : AdoptionMetrics).featureUsage,
      isArrayIndex p.1 = false) ∧
    C4Prop { initMetrics 0 with featureUsage := [("var", 3), ("fetch", 5)] } :=
  ⟨by decide, claim_C4 _ (by decide)⟩

/-- Counterexample for C4 as frozen: recording features "2" then "1" with
equal counts yields ties in ascending numeric key order (`Object.entries`
enumerates array-index keys first, numerically), not first-recorded
order. -/
theorem claim_C4_counterexample :
    (runOps (initMetrics 0)
      [TrackerOp.usage "2" 1, TrackerOp.usage "1" 1]).featureUsage =
      [("2", 1), ("1", 1)] ∧
    getMostUsedFeatures (runOps (initMetrics 0)
        [TrackerOp.usage "2" 1, TrackerOp.usage "1" 1]) ≠
      [{ feature := "2", count := 1 }, { feature := "1", count := 1 }] ∧
    getMostUsedFeatures (runOps (initMetrics 0)
        [TrackerOp.usage "2" 1, TrackerOp.usage "1" 1]) =
      [{ feature := "1", count := 1 }, { feature := "2", count := 1 }] := by
  decide
